import Mathlib

/-!
Verification development for the BG_Dashboard reconciliation engine.

The definitions below are a shallow embedding of the score-synchronisation
logic of `dailygammonNewPW_scores14-4.py` and of the identifier-discovery
logic of `find_match_ids2.py`.  Python strings are modelled as Lean `String`
(normalisation working on `List Char`), nullable integer columns as
`Option Nat`, Python `None`-able HTML text as `Option String`, and the
per-record database row as the structure `MatchRecord`.
-/

/-- Python `str.strip().lower()`: strip surrounding whitespace, then
lower-case every character (used by `map_scores` and both discovery loops). -/
def normChars (s : String) : List Char :=
  (((s.data.dropWhile Char.isWhitespace).reverse.dropWhile Char.isWhitespace).reverse).map
    Char.toLower

/-- Python `str.lower()` without strip (used by the Step 1 evaluation loop,
where `extract_latest_score` has already stripped the names). -/
def lowerChars (s : String) : List Char := s.data.map Char.toLower

/-- Boolean test that the first list is an initial segment of the second. -/
def listPrefixOf : List Char → List Char → Bool
  | [], _ => true
  | _ :: _, [] => false
  | a :: as, b :: bs => a = b && listPrefixOf as bs

/-- Index of the first occurrence of `needle` in `hay`, if any
(Python `str.find` restricted to found/not-found). -/
def findSub (needle : List Char) : List Char → Option Nat
  | [] => if needle.isEmpty then some 0 else none
  | c :: t => if listPrefixOf needle (c :: t) then some 0 else (findSub needle t).map (· + 1)

/-- Python substring test `needle in hay`. -/
def containsSub (needle hay : List Char) : Bool := (findSub needle hay).isSome

/-- Python `str.find`: index of the first occurrence, `-1` when absent. -/
def pyFind (needle hay : List Char) : Int :=
  match findSub needle hay with
  | some n => (n : Int)
  | none => -1

/-- Python truthiness of an optional string (`if not html:`):
`None` and the empty string are falsy. -/
def truthy : Option String → Bool
  | none => false
  | some s => !s.data.isEmpty

/-- One row of the `matches` table, restricted to the columns the
reconciliation logic reads and writes: nullable `left_score` and
`right_score`, the `finished` flag and the `switched_flag` column. -/
structure MatchRecord where
  left_score : Option Nat
  right_score : Option Nat
  finished : Bool
  switched : Bool
deriving DecidableEq

/-- The function `map_scores` of `dailygammonNewPW_scores14-4.py`
(lines 504-524): aligns an observed `(left_name, right_name, left_score,
right_score)` row with the record's `(player, opponent)` order.  A set
`switched_flag` swaps the scores before any name comparison; otherwise the
names decide (exact match in either order, then a substring fallback, then
`none`, meaning skip the update). -/
def map_scores (player opponent left_name right_name : String)
    (left_score right_score : Nat) (switched_flag : Bool) : Option (Nat × Nat) :=
  let lnrm := normChars left_name
  let rnrm := normChars right_name
  let pnrm := normChars player
  let onrm := normChars opponent
  if switched_flag then some (right_score, left_score)
  else if lnrm = pnrm ∧ rnrm = onrm then some (left_score, right_score)
  else if lnrm = onrm ∧ rnrm = pnrm then some (right_score, left_score)
  else if containsSub pnrm lnrm || containsSub pnrm rnrm
      || containsSub onrm lnrm || containsSub onrm rnrm then
    if containsSub pnrm lnrm then some (left_score, right_score)
    else if containsSub pnrm rnrm then some (right_score, left_score)
    else none
  else none

/-- Name-based resolution chain of `map_scores` (exact match in record
order, exact match reversed, substring fallback, otherwise skip), written
the way the claims describe it; reached only when the switched flag is
false. -/
def nameResolve (player opponent left_name right_name : String)
    (left_score right_score : Nat) : Option (Nat × Nat) :=
  let lnrm := normChars left_name
  let rnrm := normChars right_name
  let pnrm := normChars player
  let onrm := normChars opponent
  if lnrm = pnrm ∧ rnrm = onrm then some (left_score, right_score)
  else if lnrm = onrm ∧ rnrm = pnrm then some (right_score, left_score)
  else if containsSub pnrm lnrm then some (left_score, right_score)
  else if containsSub pnrm rnrm then some (right_score, left_score)
  else none

/-- The function `update_score_in_db` of `dailygammonNewPW_scores14-4.py`
(lines 1153-1188).  `row` is the record found by the SELECT (or `none`).
It returns the stored record after the call together with the flag the
function returns (`true` exactly when the UPDATE was executed).  The
UPDATE writes both score columns and touches neither `finished` nor
`switched_flag`; it is skipped when either stored score is already 11. -/
def update_score_in_db (row : Option MatchRecord) (player_score opponent_score : Nat) :
    Option MatchRecord × Bool :=
  match row with
  | none => (none, false)
  | some r =>
    if r.left_score = some 11 ∨ r.right_score = some 11 then (some r, false)
    else (some { r with left_score := some player_score,
                        right_score := some opponent_score }, true)

/-- Body of the Phase 2 final-results loop of
`dailygammonNewPW_scores14-4.py` (lines 1297-1330), identical in effect to
`update_match_score_in_db` (lines 1245-1293): given the record's canonical
names and its row, the winner name selects a column (`left_score` when the
winner equals the player name and the record is not switched, otherwise
`right_score`, and symmetrically for the opponent name) which is set to 11
together with `finished = true`; an unmatched winner name leaves the row
untouched. -/
def commitWinner (db_player db_opponent winner_name : String) (r : MatchRecord) :
    MatchRecord :=
  if winner_name = db_player then
    if r.switched = false then { r with left_score := some 11, finished := true }
    else { r with right_score := some 11, finished := true }
  else if winner_name = db_opponent then
    if r.switched = false then { r with right_score := some 11, finished := true }
    else { r with left_score := some 11, finished := true }
  else r

/-- Mapping-and-write tail of the score-propagation loop
(lines 1228-1239): run `map_scores` on the observation; on `none` leave the
row untouched, otherwise store the mapped pair through
`update_score_in_db`. -/
def propagateWrite (db_player db_opponent : String) (row : Option MatchRecord)
    (left_name right_name : String) (left_score right_score : Nat) (switched : Bool) :
    Option MatchRecord × Bool :=
  match map_scores db_player db_opponent left_name right_name left_score right_score switched with
  | none => (row, false)
  | some (ps, osc) => update_score_in_db row ps osc

/-- Step 1 match-evaluation of `dailygammonNewPW_scores14-4.py`
(lines 1013-1050), restricted to one record: starting from the
`switched_flag` loaded from the database (`prior`), the in-memory flag is
left alone when no score observation is available, and otherwise re-derived
from the observed left/right names (record order yields `false`, reversed
order `true`, and an unclear order also `false`). -/
def step1Resolve (player opponent : String) (prior : Bool)
    (obs : Option (String × String)) : Bool :=
  match obs with
  | none => prior
  | some (lnm, rnm) =>
    if lowerChars lnm = lowerChars player ∧ lowerChars rnm = lowerChars opponent then false
    else if lowerChars lnm = lowerChars opponent ∧ lowerChars rnm = lowerChars player then true
    else false

/-- Name-to-flag resolution of the candidate loop in
`find_match_ids2.py` `process_groups` (lines 240-247): a candidate
opponent name equal (after strip/lower) to the record's opponent yields
`switched = false`, equal to the record's player yields `switched = true`,
anything else is skipped. -/
def resolveSwitchedFlag (player_db opponent_db cand_name : String) : Option Bool :=
  if normChars cand_name = normChars opponent_db then some false
  else if normChars cand_name = normChars player_db then some true
  else none

/-- Candidate loop of `find_match_ids2.py` `process_groups`
(lines 230-267) for one record missing its `match_id`: walk the discovered
`(opponent_name_dg, match_id)` pairs in page order, skip ids already
attached anywhere (`existing_match_ids`) and names matching neither side,
and on the first acceptable candidate return the `(match_id, switched)`
pair that the UPDATE persists, searching no further. -/
def processCandidates (player_db opponent_db : String) (existing : List Nat) :
    List (String × Nat) → Option (Nat × Bool)
  | [] => none
  | (nm, mid) :: rest =>
    if existing.contains mid then processCandidates player_db opponent_db existing rest
    else
      match resolveSwitchedFlag player_db opponent_db nm with
      | some sw => some (mid, sw)
      | none => processCandidates player_db opponent_db existing rest

/-- Step 2 fill-missing-match-ids loop of
`dailygammonNewPW_scores14-4.py` (lines 931-961) for one record: a
candidate is skipped unless its name equals (after strip/lower) the
record's opponent name, and unless its id is globally unused; the first
acceptable candidate's id is persisted (the `switched_flag` column is not
written) and the search stops. -/
def step2Candidates (opponent_name_db : String) (existing : List Nat) :
    List (String × Nat) → Option Nat
  | [] => none
  | (nm, mid) :: rest =>
    if normChars nm = normChars opponent_name_db then
      if existing.contains mid then step2Candidates opponent_name_db existing rest
      else some mid
    else step2Candidates opponent_name_db existing rest

/-- Fixed column threshold of the winner-detection heuristic
(`mid_threshold = 24` in Phase 1, line 1112). -/
def mid_threshold : Int := 24

/-- Substring marking a terminating export line, first part. -/
def andTheMatchNeedle : List Char := "and the match".data

/-- Substring marking a terminating export line, second part. -/
def winsNeedle : List Char := "Wins".data

/-- Test whether an export line carries the match-terminating signal
(contains both "and the match" and "Wins"). -/
def lineSignal (line : List Char) : Bool :=
  containsSub andTheMatchNeedle line && containsSub winsNeedle line

/-- Winner-detection heuristic of Phase 1
(`dailygammonNewPW_scores14-4.py`, lines 1110-1125): iterate the export
lines from bottom to top, stop at the first line containing both
"and the match" and "Wins", and pick the record's player when the index of
"Wins" in that line is strictly below `mid_threshold`, the opponent
otherwise; yield nothing when no line qualifies. -/
def extractWinner (player opponent : String) (lines : List (List Char)) : Option String :=
  match lines.reverse.find? lineSignal with
  | none => none
  | some line => some (if pyFind winsNeedle line < mid_threshold then player else opponent)

/-- HTTP response as far as `fetch_list_html` inspects it. -/
structure HttpResp where
  ok : Bool
  text : String
deriving DecidableEq

/-- Login indicator checked by `fetch_list_html`. -/
def loginNeedle : List Char := "Please Login".data

/-- The function `fetch_list_html` of `dailygammonNewPW_scores14-4.py`
(lines 448-456).  `resp = none` models a raised `requests.RequestException`;
otherwise the response is dropped when its status is not ok or its body
contains "Please Login", and returned as text when neither holds. -/
def fetch_list_html (resp : Option HttpResp) : Option String :=
  match resp with
  | none => none
  | some r =>
    if !r.ok || containsSub loginNeedle r.text.data then none
    else some r.text

/-- The per-run fetch cache `html_cache`, a dictionary from match id to
fetched text-or-`None`; represented as an association list where the most
recent insertion wins. -/
def Cache := List (Nat × Option String)

/-- Dictionary key lookup (`mid in html_cache` distinguishes a key mapped
to `None` from an absent key, hence the nested option). -/
def cacheLookup : List (Nat × Option String) → Nat → Option (Option String)
  | [], _ => none
  | (k, v) :: t, mid => if k = mid then some v else cacheLookup t mid

/-- Dictionary assignment `html_cache[mid] = v`. -/
def cacheInsert (c : List (Nat × Option String)) (mid : Nat) (v : Option String) :
    List (Nat × Option String) :=
  (mid, v) :: c

/-- Python `html_cache.get(mid)`: `None` both for an absent key and for a
key stored as `None`. -/
def pyGet (c : List (Nat × Option String)) (mid : Nat) : Option String :=
  match cacheLookup c mid with
  | none => none
  | some v => v

/-- The `to_fetch_ids` selection (lines 1002-1006): ids of the group not
already cached and not already known finished. -/
def toFetchIds (cache : List (Nat × Option String)) (finished : List Nat)
    (ids : List Nat) : List Nat :=
  ids.filter (fun mid => (cacheLookup cache mid).isNone && !(finished.contains mid))

/-- Prefetch loop (lines 1008-1010): fetch every selected id once, storing
the result (possibly `None`) in the cache; the second component logs the
ids for which a network fetch was performed, in order. -/
def prefetchAll (fetcher : Nat → Option String) :
    List (Nat × Option String) → List Nat → List (Nat × Option String) × List Nat
  | c, [] => (c, [])
  | c, mid :: rest =>
    let c1 := cacheInsert c mid (fetcher mid)
    let pr := prefetchAll fetcher c1 rest
    (pr.1, mid :: pr.2)

/-- Cache consultation of the score-propagation loop (lines 1214-1219):
take the cached text; when it is `None` or empty, fetch again over the
network and store the result.  The second component logs the id when a
network fetch was performed. -/
def propagationConsume (fetcher : Nat → Option String)
    (c : List (Nat × Option String)) (mid : Nat) :
    List (Nat × Option String) × List Nat :=
  if truthy (pyGet c mid) then (c, [])
  else (cacheInsert c mid (fetcher mid), [mid])

/-- Run the propagation-phase cache consultation for a list of consumer
ids, threading the cache and concatenating the fetch logs. -/
def runConsumers (fetcher : Nat → Option String) :
    List (Nat × Option String) → List Nat → List (Nat × Option String) × List Nat
  | c, [] => (c, [])
  | c, mid :: rest =>
    let s1 := propagationConsume fetcher c mid
    let s2 := runConsumers fetcher s1.1 rest
    (s2.1, s1.2 ++ s2.2)

/-- Match-page fetches of one reconciliation run, starting from a fresh
cache and no known-finished ids (a fresh process): prefetch all group ids,
then serve the propagation-phase consumers; the result is the log of
match-page network fetches performed.  This covers only the `BASE_URL`
match pages going through `html_cache`; the winner-detection export fetches
of Phase 1 bypass the cache entirely and are modelled by
`phase1ExportLog`. -/
def runFetchLog (fetcher : Nat → Option String) (ids consumers : List Nat) : List Nat :=
  let pf := prefetchAll fetcher [] (toFetchIds [] [] ids)
  pf.2 ++ (runConsumers fetcher pf.1 consumers).2

/-- Export-page fetches of Phase 1 winner detection
(`dailygammonNewPW_scores14-4.py`, lines 1094-1108): for every entry of
`all_match_ids` whose winner field is not yet truthy, `session.get` is
called on the export url of that id — no cache is consulted or filled.
The argument pairs each id with its current winner field (`none` for every
entry at the start of a run); the result logs the ids fetched. -/
def phase1ExportLog : List (Nat × Option String) → List Nat
  | [] => []
  | (mid, w) :: rest =>
    if truthy w then phase1ExportLog rest
    else mid :: phase1ExportLog rest

/-- Full network-fetch log of one reconciliation run in program order:
the Step 1 match-page prefetch, then the Phase 1 export fetches (one per
id, uncached), then the propagation-phase match-page consumers. -/
def runFetchLogFull (fetcher : Nat → Option String) (ids consumers : List Nat) :
    List Nat :=
  let pf := prefetchAll fetcher [] (toFetchIds [] [] ids)
  pf.2 ++ phase1ExportLog (ids.map fun mid => (mid, none))
    ++ (runConsumers fetcher pf.1 consumers).2

/-- Concrete side-A name used in witnesses and counterexamples. -/
def nmAlice : String := "Alice"

/-- Concrete side-B name used in witnesses and counterexamples. -/
def nmBob : String := "Bob"

/-- Concrete non-terminating export line (no "Wins"). -/
def exportOtherLine : List Char := "some earlier content of the export".data

/-- Concrete terminating export line with "Wins" at column 2, left of the
threshold. -/
def exportWinLine : List Char := "x Wins 2 points and the match".data

/-- Concrete non-empty page text used in fetch-cache witnesses. -/
def pageText : String := "x"

/-- A `MatchRecord` whose fields are rewritten with its own stored score
values is the record itself (structure eta, used to reason about writes of
unchanged scores). -/
theorem record_rewrite_self (r : MatchRecord) (ps osc : Nat)
    (h1 : r.left_score = some ps) (h2 : r.right_score = some osc) :
    ({ r with left_score := some ps, right_score := some osc } : MatchRecord) = r := by
  obtain ⟨ls, rs, fin, sw⟩ := r
  simp_all

/-- The `List.find?` of a concatenation whose first part satisfies the
predicate nowhere is the `find?` of the second part. -/
theorem find?_skip_prefix {α : Type} (p : α → Bool) (l₁ l₂ : List α)
    (h : ∀ a ∈ l₁, p a = false) : (l₁ ++ l₂).find? p = l₂.find? p := by
  induction l₁ with
  | nil => rfl
  | cons a t ih =>
    have ha := h a (List.mem_cons_self a t)
    simp only [List.cons_append, List.find?, ha]
    exact ih fun x hx => h x (List.mem_cons_of_mem a hx)

/-- C10: in `map_scores` a set switched flag takes precedence over every
name comparison — with `switched_flag = true` the result is the swapped
pair `(right_score, left_score)` unconditionally, whatever the observed
names are; the name-based resolution chain (exact match, substring
fallback, otherwise skip) is taken exactly when the flag is false. -/
theorem map_scores_switched_precedence :
    (∀ (p o lnm rnm : String) (l r : Nat),
        map_scores p o lnm rnm l r true = some (r, l)) ∧
    (∀ (p o lnm rnm : String) (l r : Nat),
        map_scores p o lnm rnm l r false = nameResolve p o lnm rnm l r) := by
  constructor
  · intro p o lnm rnm l r
    simp [map_scores]
  · intro p o lnm rnm l r
    cases hc1 : containsSub (normChars p) (normChars lnm) <;>
      cases hc2 : containsSub (normChars p) (normChars rnm) <;>
        simp [map_scores, nameResolve, hc1, hc2]

/-- C9: `fetch_list_html` returns `none` exactly when the request raised,
the response status was not ok, or the body contains the login indicator;
it returns text exactly for an ok response without the login indicator,
and then returns that response's body. -/
theorem fetch_list_html_absence :
    ∀ resp : Option HttpResp,
      (fetch_list_html resp = none ↔
        resp = none ∨ ∃ r, resp = some r ∧
          (r.ok = false ∨ containsSub loginNeedle r.text.data = true)) ∧
      (∀ t, fetch_list_html resp = some t ↔
        ∃ r, resp = some r ∧ r.ok = true ∧
          containsSub loginNeedle r.text.data = false ∧ t = r.text) := by
  intro resp
  cases resp with
  | none => simp [fetch_list_html]
  | some r =>
    cases hok : r.ok <;> cases hc : containsSub loginNeedle r.text.data <;>
      (simp [fetch_list_html, hok, hc]; try exact fun t => eq_comm)

/-- C3: score mapping into the store under a resolved orientation — for a
record whose switched flag is set, an observation with left score `l` and
right score `r` is stored with the side-A (player) column `left_score = r`
and the side-B (opponent) column `right_score = l`; with the flag unset and
the observed names matching in record order the mapping is direct. -/
theorem propagation_mapping_orientation :
    ∀ (rec : MatchRecord) (p o lnm rnm : String) (l r : Nat),
      rec.left_score ≠ some 11 → rec.right_score ≠ some 11 →
      (propagateWrite p o (some rec) lnm rnm l r true).1
          = some { rec with left_score := some r, right_score := some l } ∧
      (normChars lnm = normChars p → normChars rnm = normChars o →
        (propagateWrite p o (some rec) lnm rnm l r false).1
            = some { rec with left_score := some l, right_score := some r }) := by
  intro rec p o lnm rnm l r h1 h2
  constructor
  · simp [propagateWrite, map_scores, update_score_in_db, h1, h2]
  · intro e1 e2
    simp [propagateWrite, map_scores, e1, e2, update_score_in_db, h1, h2]

/-- Witness for C3 at the spec's own scenario: observation
`left_name = "Bob", right_name = "Alice", left = 7, right = 4` on a
switched record with side A `Alice` is stored as
`left_score (side A) = 4, right_score (side B) = 7`. -/
theorem propagation_mapping_orientation_witness :
    (propagateWrite nmAlice nmBob (some ⟨some 0, some 0, false, true⟩)
        nmBob nmAlice 7 4 true).1 = some ⟨some 4, some 7, false, true⟩ :=
  (propagation_mapping_orientation ⟨some 0, some 0, false, true⟩ nmAlice nmBob
    nmBob nmAlice 7 4 (by decide) (by decide)).1

/-- C1 (code bug): evaluation of the Phase 2 commit at the failing input —
a switched record whose winner is side A (the player).  The commit sets the
side-B column `right_score` to 11 and leaves the side-A column untouched,
although `left_score` is the side-A (player) column: the propagation write
stores the player score in `left_score` for a switched record too, as the
second conjunct shows. -/
theorem phase2_commit_uses_switched_column :
    commitWinner nmAlice nmBob nmAlice ⟨some 5, some 3, false, true⟩
        = ⟨some 5, some 11, true, true⟩ ∧
    (update_score_in_db (some (⟨some 2, some 1, false, true⟩ : MatchRecord)) 5 3).1
        = some ⟨some 5, some 3, false, true⟩ := by
  decide

/-- C2 counterexample: a record whose stored `left_score` is already 11 is
still changed by the Phase 2 final-result commit — its `finished` flag is
rewritten from `false` to `true` — so a later cycle does change such a
record. -/
theorem commit_changes_record_with_eleven :
    commitWinner nmAlice nmBob nmAlice ⟨some 11, some 6, false, false⟩
        ≠ ⟨some 11, some 6, false, false⟩ := by
  decide

/-- C2 amended: once either stored score is 11, the intermediate score
propagation leaves the record completely unchanged and reports no write;
the Phase 2 commit may still write to such a record, but that write only
sets one column to 11 and `finished` to `true`, never altering the other
column. -/
theorem eleven_blocks_propagation_write :
    ∀ (r : MatchRecord) (ps osc : Nat) (p o w : String),
      (r.left_score = some 11 ∨ r.right_score = some 11 →
        update_score_in_db (some r) ps osc = (some r, false)) ∧
      (commitWinner p o w r = r ∨
        ((commitWinner p o w r).finished = true ∧
          (((commitWinner p o w r).left_score = some 11 ∧
              (commitWinner p o w r).right_score = r.right_score) ∨
            ((commitWinner p o w r).right_score = some 11 ∧
              (commitWinner p o w r).left_score = r.left_score)))) := by
  intro r ps osc p o w
  constructor
  · intro h
    simp [update_score_in_db, h]
  · unfold commitWinner
    split_ifs <;>
      first
        | exact Or.inl rfl
        | exact Or.inr ⟨rfl, Or.inl ⟨rfl, rfl⟩⟩
        | exact Or.inr ⟨rfl, Or.inr ⟨rfl, rfl⟩⟩

/-- Witness for C2 as amended, at the spec's scenario: stored scores
`{11, 6}` and a fresh observation `{9, 6}` — the propagation write is
discarded and the record is unchanged. -/
theorem eleven_blocks_propagation_write_witness :
    update_score_in_db (some ⟨some 11, some 6, false, false⟩) 9 6
        = (some ⟨some 11, some 6, false, false⟩, false) :=
  (eleven_blocks_propagation_write ⟨some 11, some 6, false, false⟩ 9 6
    nmAlice nmBob nmAlice).1 (Or.inl rfl)

/-- C4 counterexample: a record persisted with `switched = true` whose
observation this cycle shows the names in record order has its in-memory
flag re-resolved to `false` by the Step 1 evaluation, and the cycle's score
write then maps directly — a different direction from the persisted flag's
swapped mapping. -/
theorem step1_overrides_persisted_flag :
    step1Resolve nmAlice nmBob true (some (nmAlice, nmBob)) = false ∧
    map_scores nmAlice nmBob nmAlice nmBob 7 4
        (step1Resolve nmAlice nmBob true (some (nmAlice, nmBob))) = some (7, 4) ∧
    map_scores nmAlice nmBob nmAlice nmBob 7 4 true = some (4, 7) := by
  decide

/-- C4 amended: the persisted switched flag is used by a cycle only when no
score observation is available; whenever an observation is available, the
mapping direction used for that cycle's writes is re-resolved solely from
the observed left/right names, independently of the persisted value. -/
theorem step1_resolution_independent_of_prior :
    (∀ (p o : String) (prior : Bool), step1Resolve p o prior none = prior) ∧
    (∀ (p o lnm rnm : String) (b1 b2 : Bool),
      step1Resolve p o b1 (some (lnm, rnm)) = step1Resolve p o b2 (some (lnm, rnm))) :=
  ⟨fun _ _ _ => rfl, fun _ _ _ _ _ _ => rfl⟩

/-- C5 counterexample: in the sync script's own fill-missing loop, a
discovered candidate whose opponent name equals side A's (the player's)
name is skipped — no remote id is attached and nothing is marked switched —
although the standalone discovery script would accept it as switched. -/
theorem step2_skips_sideA_candidate :
    step2Candidates nmBob [] [(nmAlice, 99)] = none ∧
    resolveSwitchedFlag nmAlice nmBob nmAlice = some true := by
  decide

/-- C6 counterexample: `update_score_in_db` executes its UPDATE (returning
`true`) even when the mapped scores are identical to the stored ones, so a
score write is not conditional on the scores differing. -/
theorem equal_scores_still_written :
    update_score_in_db (some ⟨some 5, some 3, false, false⟩) 5 3
        = (some ⟨some 5, some 3, false, false⟩, true) := by
  decide

/-- C6 amended: the propagation write is guarded only by the terminal-score
check — the UPDATE executes iff neither stored score is 11 — and the stored
record is left unchanged whenever either stored score is 11 or the mapped
scores coincide with the stored ones; consequently the stored record
changes only if the mapped scores differ from the stored ones and neither
stored score is 11. -/
theorem score_write_guard :
    ∀ (r : MatchRecord) (ps osc : Nat),
      ((update_score_in_db (some r) ps osc).2 = true ↔
        (r.left_score ≠ some 11 ∧ r.right_score ≠ some 11)) ∧
      ((r.left_score = some 11 ∨ r.right_score = some 11) ∨
          (r.left_score = some ps ∧ r.right_score = some osc) →
        (update_score_in_db (some r) ps osc).1 = some r) ∧
      ((update_score_in_db (some r) ps osc).1 ≠ some r →
        (r.left_score ≠ some 11 ∧ r.right_score ≠ some 11) ∧
          ¬(r.left_score = some ps ∧ r.right_score = some osc)) := by
  intro r ps osc
  by_cases h : r.left_score = some 11 ∨ r.right_score = some 11
  · refine ⟨?_, fun _ => ?_, fun hne => ?_⟩
    · simp only [update_score_in_db, if_pos h]
      constructor
      · intro hfalse
        exact absurd hfalse (by decide)
      · intro hcon
        exact absurd h (by tauto)
    · simp [update_score_in_db, h]
    · exact absurd (by simp [update_score_in_db, h]) hne
  · push_neg at h
    have hcond : ¬(r.left_score = some 11 ∨ r.right_score = some 11) := by tauto
    refine ⟨?_, ?_, fun hne => ?_⟩
    · simp only [update_score_in_db, if_neg hcond]
      exact ⟨fun _ => h, fun _ => trivial⟩
    · rintro (hc | ⟨e1, e2⟩)
      · exact absurd hc hcond
      · simp only [update_score_in_db, if_neg hcond]
        exact congrArg some (record_rewrite_self r ps osc e1 e2)
    · refine ⟨h, fun he => ?_⟩
      apply hne
      simp only [update_score_in_db, if_neg hcond]
      exact congrArg some (record_rewrite_self r ps osc he.1 he.2)

/-- Witness for C6 as amended: stored scores `{11, 6}` block the write and
the stored record is returned unchanged. -/
theorem score_write_guard_witness :
    (update_score_in_db (some ⟨some 11, some 6, false, false⟩) 9 6).1
        = some ⟨some 11, some 6, false, false⟩ :=
  (score_write_guard ⟨some 11, some 6, false, false⟩ 9 6).2.1 (Or.inl (Or.inl rfl))

/-- C7 counterexample, refuting at-most-one-fetch-per-id on two counts:
with a fetcher returning absent, one id and one propagation consumer cause
three network fetches of that id in one run (prefetch, uncached Phase 1
export fetch, consumer retry of the cached `None`); and even with a healthy
fetcher the same id is fetched twice, because winner detection fetches the
export page without any cache. -/
theorem absent_fetch_refetched :
    (runFetchLogFull (fun _ => none) [7] [7]).count 7 = 3 ∧
    (runFetchLogFull (fun _ => some pageText) [7] [7]).count 7 = 2 := by
  decide

/-- C5 amended: in the standalone discovery script, a candidate is skipped
when its id is already attached or its name matches neither side
(case-insensitively after strip); a name equal to side B's yields
not-switched, equal to side A's yields switched, and the first acceptable
candidate's id and flag are returned with no further candidates considered.
In the sync script's own fill-missing loop, by contrast, a candidate is
accepted only when its name equals side B's name (side-A matches are
skipped) and only the remote id is returned. -/
theorem discovery_candidate_rules :
    (∀ (p o : String) (ex : List Nat) (nm : String) (mid : Nat)
        (rest : List (String × Nat)) (sw : Bool),
        mid ∉ ex → resolveSwitchedFlag p o nm = some sw →
        processCandidates p o ex ((nm, mid) :: rest) = some (mid, sw)) ∧
    (∀ (p o : String) (ex : List Nat) (nm : String) (mid : Nat)
        (rest : List (String × Nat)), mid ∈ ex →
        processCandidates p o ex ((nm, mid) :: rest) = processCandidates p o ex rest) ∧
    (∀ (p o : String) (ex : List Nat) (nm : String) (mid : Nat)
        (rest : List (String × Nat)), resolveSwitchedFlag p o nm = none →
        processCandidates p o ex ((nm, mid) :: rest) = processCandidates p o ex rest) ∧
    (∀ p o nm, resolveSwitchedFlag p o nm = none ↔
        (normChars nm ≠ normChars o ∧ normChars nm ≠ normChars p)) ∧
    (∀ p o nm, normChars nm = normChars o → resolveSwitchedFlag p o nm = some false) ∧
    (∀ p o nm, normChars nm ≠ normChars o → normChars nm = normChars p →
        resolveSwitchedFlag p o nm = some true) ∧
    (∀ (o : String) (ex : List Nat) (nm : String) (mid : Nat)
        (rest : List (String × Nat)), normChars nm = normChars o →
        mid ∉ ex → step2Candidates o ex ((nm, mid) :: rest) = some mid) ∧
    (∀ (o : String) (ex : List Nat) (nm : String) (mid : Nat)
        (rest : List (String × Nat)), normChars nm ≠ normChars o →
        step2Candidates o ex ((nm, mid) :: rest) = step2Candidates o ex rest) := by
  refine ⟨?_, ?_, ?_, ?_, ?_, ?_, ?_, ?_⟩
  · intro p o ex nm mid rest sw h1 h2
    simp [processCandidates, h1, h2]
  · intro p o ex nm mid rest h1
    simp [processCandidates, h1]
  · intro p o ex nm mid rest h1
    by_cases hc : mid ∈ ex
    · simp [processCandidates, hc]
    · simp [processCandidates, hc, h1]
  · intro p o nm
    unfold resolveSwitchedFlag
    split_ifs with h1 h2 <;> simp_all
  · intro p o nm h1
    simp [resolveSwitchedFlag, h1]
  · intro p o nm h1 h2
    unfold resolveSwitchedFlag
    rw [if_neg h1, if_pos h2]
  · intro o ex nm mid rest h1 h2
    simp [step2Candidates, h1, h2]
  · intro o ex nm mid rest h1
    simp [step2Candidates, h1]

/-- Witness for C5 as amended: side A `Alice`, side B `Bob`, no ids
attached yet; the first candidate `("Bob", 7)` is acceptable, yields
not-switched, and the second candidate is never considered. -/
theorem discovery_candidate_rules_witness :
    processCandidates nmAlice nmBob [] [(nmBob, 7), (nmAlice, 8)] = some (7, false) :=
  discovery_candidate_rules.1 nmAlice nmBob [] nmBob 7 [(nmAlice, 8)] false
    (by decide) (by decide)

/-- Prefetch loop network-log: every selected id is fetched, in order. -/
theorem prefetchAll_log (fetcher : Nat → Option String)
    (c : List (Nat × Option String)) (ids : List Nat) :
    (prefetchAll fetcher c ids).2 = ids := by
  induction ids generalizing c with
  | nil => rfl
  | cons a t ih => simp [prefetchAll, ih]

/-- Prefetching ids not containing `mid` leaves `mid`'s cache entry
unchanged. -/
theorem prefetchAll_lookup_of_not_mem (fetcher : Nat → Option String)
    (c : List (Nat × Option String)) (ids : List Nat) (mid : Nat) (h : mid ∉ ids) :
    cacheLookup (prefetchAll fetcher c ids).1 mid = cacheLookup c mid := by
  induction ids generalizing c with
  | nil => rfl
  | cons a t ih =>
    have hna : mid ≠ a := fun e => h (e ▸ List.mem_cons_self a t)
    have hnt : mid ∉ t := fun m => h (List.mem_cons_of_mem a m)
    simp only [prefetchAll]
    rw [ih _ hnt]
    simp [cacheInsert, cacheLookup, Ne.symm hna]

/-- After prefetching a list containing `mid`, the cache maps `mid` to the
fetcher's result for `mid`. -/
theorem prefetchAll_lookup_of_mem (fetcher : Nat → Option String)
    (c : List (Nat × Option String)) (ids : List Nat) (mid : Nat) (h : mid ∈ ids) :
    cacheLookup (prefetchAll fetcher c ids).1 mid = some (fetcher mid) := by
  induction ids generalizing c with
  | nil => cases h
  | cons a t ih =>
    by_cases hm : mid ∈ t
    · simp only [prefetchAll]
      exact ih _ hm
    · have hma : mid = a := by
        rcases List.mem_cons.mp h with h1 | h2
        · exact h1
        · exact absurd h2 hm
      subst hma
      simp only [prefetchAll]
      rw [prefetchAll_lookup_of_not_mem fetcher _ t mid hm]
      simp [cacheInsert, cacheLookup]

/-- When the cached text for `mid` is truthy, running any list of
propagation consumers performs no network fetch for `mid` and keeps its
cached text truthy. -/
theorem runConsumers_no_refetch (fetcher : Nat → Option String)
    (consumers : List Nat) :
    ∀ (c : List (Nat × Option String)) (mid : Nat), truthy (pyGet c mid) = true →
      (runConsumers fetcher c consumers).2.count mid = 0 ∧
      truthy (pyGet (runConsumers fetcher c consumers).1 mid) = true := by
  induction consumers with
  | nil => intro c mid h; exact ⟨rfl, h⟩
  | cons a t ih =>
    intro c mid h
    by_cases hma : a = mid
    · subst hma
      simp only [runConsumers, propagationConsume, h, if_true]
      simpa using ih c a h
    · by_cases ht : truthy (pyGet c a) = true
      · simp only [runConsumers, propagationConsume, ht, if_true]
        simpa using ih c mid h
      · have hpres : pyGet (cacheInsert c a (fetcher a)) mid = pyGet c mid := by
          simp [pyGet, cacheInsert, cacheLookup, hma]
        have hrest := ih (cacheInsert c a (fetcher a)) mid (by rw [hpres]; exact h)
        simp only [runConsumers, propagationConsume, if_neg ht]
        refine ⟨?_, hrest.2⟩
        simp [List.count_cons, hrest.1, hma]

/-- At the start of a run every `all_match_ids` entry has an unset winner
field, so Phase 1 fetches the export page of every id. -/
theorem phase1ExportLog_fresh (ids : List Nat) :
    phase1ExportLog (ids.map fun mid => (mid, none)) = ids := by
  induction ids with
  | nil => rfl
  | cons a t ih => simp [phase1ExportLog, truthy, ih]

/-- C7 amended: within one run starting from a fresh cache, when the
match-page fetch of an id yields truthy (non-empty) content, that page is
fetched exactly once — the prefetch — no matter how many propagation-phase
consumers request it afterwards; the id nevertheless triggers a second
network fetch in the same run, because Phase 1 winner detection fetches its
export page with no cache, and when the match-page fetch returned absent,
each propagation consumer additionally retries it (see the
counterexample). -/
theorem fetch_cache_single_fetch :
    ∀ (fetcher : Nat → Option String) (ids consumers : List Nat) (mid : Nat),
      truthy (fetcher mid) = true → mid ∈ ids → ids.Nodup →
      (runFetchLog fetcher ids consumers).count mid = 1 ∧
      (runFetchLogFull fetcher ids consumers).count mid = 2 := by
  intro fetcher ids consumers mid ht hmem hnd
  have hto : toFetchIds [] [] ids = ids := by
    simp [toFetchIds, cacheLookup, List.filter_eq_self]
  have hlookup : cacheLookup (prefetchAll fetcher [] ids).1 mid
      = some (fetcher mid) := prefetchAll_lookup_of_mem fetcher [] ids mid hmem
  have htruthy : truthy (pyGet (prefetchAll fetcher [] ids).1 mid) = true := by
    simp [pyGet, hlookup, ht]
  have hcons := (runConsumers_no_refetch fetcher consumers
    (prefetchAll fetcher [] ids).1 mid htruthy).1
  have hone : List.count mid ids = 1 := List.count_eq_one_of_mem hnd hmem
  constructor
  · simp only [runFetchLog]
    rw [hto, List.count_append, prefetchAll_log, hcons, hone]
  · simp only [runFetchLogFull]
    rw [hto, List.count_append, List.count_append, prefetchAll_log,
      phase1ExportLog_fresh, hcons, hone]

/-- Witness for C7 as amended: a fetcher returning non-empty text, one
group id `7`, two propagation consumers of `7` — exactly one match-page
fetch of `7`, and exactly two network fetches of `7` overall (the second
being the uncached export fetch). -/
theorem fetch_cache_single_fetch_witness :
    truthy ((fun _ => some pageText) 7) = true ∧
    (runFetchLog (fun _ => some pageText) [7] [7, 7]).count 7 = 1 ∧
    (runFetchLogFull (fun _ => some pageText) [7] [7, 7]).count 7 = 2 := by
  have h := fetch_cache_single_fetch (fun _ => some pageText) [7] [7, 7] 7
    (by decide) (by decide) (by decide)
  exact ⟨by decide, h.1, h.2⟩

/-- C8: scanning export lines from bottom to top, the first line containing
both "and the match" and "Wins" decides the result — the winner is the
first-listed side (the record's player) exactly when the index of "Wins" in
that line is strictly below the fixed threshold, and the second-listed side
otherwise; when no line carries the signal, no winner is returned. -/
theorem winner_line_heuristic :
    ∀ (player opponent : String),
      (∀ lines : List (List Char), (∀ l ∈ lines, lineSignal l = false) →
        extractWinner player opponent lines = none) ∧
      (∀ (pre : List (List Char)) (line : List Char) (post : List (List Char)),
        lineSignal line = true → (∀ l ∈ post, lineSignal l = false) →
        extractWinner player opponent (pre ++ line :: post)
          = some (if pyFind winsNeedle line < mid_threshold then player else opponent)) := by
  intro player opponent
  constructor
  · intro lines h
    have hfind : lines.reverse.find? lineSignal = none := by
      rw [List.find?_eq_none]
      intro x hx
      simp [h x (List.mem_reverse.mp hx)]
    unfold extractWinner
    rw [hfind]
  · intro pre line post hsig hpost
    have hrev : (pre ++ line :: post).reverse = post.reverse ++ line :: pre.reverse := by
      simp
    have hfind : (pre ++ line :: post).reverse.find? lineSignal = some line := by
      rw [hrev,
        find?_skip_prefix lineSignal post.reverse _
          (fun a ha => hpost a (List.mem_reverse.mp ha))]
      simp [List.find?, hsig]
    unfold extractWinner
    rw [hfind]

/-- Witness for C8: an export whose bottom-most signal line has "Wins" at
column 2, left of the threshold — the winner is the first-listed side. -/
theorem winner_line_heuristic_witness :
    extractWinner nmAlice nmBob ([exportOtherLine] ++ exportWinLine :: []) = some nmAlice :=
  (((winner_line_heuristic nmAlice nmBob).2 [exportOtherLine] exportWinLine []
    (by decide) (fun l hl => absurd hl (List.not_mem_nil l))).trans (by decide))
